import Mathlib

/-!
Verification of `selenium_side_runner/loader.py`: a deserializer turning a
Selenium IDE `.side` JSON string into an in-memory project model.

The embedding mirrors the Python code shallowly:
* JSON values (the output of `json.loads`) are `JsonValue`; arrays and
  objects are given their own mutually inductive list types (`JsonArr`,
  `JsonObj`) so that decidable equality can be derived, with `toList` and
  `ofList` conversions to ordinary Lean lists.
* Python exceptions raised by the loader are the constructors of `PyError`.
  The explicit `raise TypeError("json_payload 는 문자열이어야 합니다.")` at the
  top of `load_side_project` is modelled by its own constructor
  `inputTypeError` (this is the "InputTypeError" of the design document);
  other run-time `TypeError`s (iterating a non-iterable, unhashable dict key)
  are `typeError`, and `.get` on a non-dict is `attributeError`.
* The external JSON parser (`json.loads`) is abstracted: a Python string
  argument is represented by its parse outcome, `Except Unit JsonValue`
  (`.error ()` for text that is not syntactically valid JSON, in which case
  `json.loads` raises `json.JSONDecodeError` — "MalformedInputError").
* Python `dict` semantics are modelled explicitly: insertion-ordered
  association lists with last-write-wins values and first-insertion key
  order; `dict.get`, truthiness (`bool(...)` and `x or y`), iteration over
  lists/strings/dicts, and key hashability are each given their own
  definition below.
-/

set_option autoImplicit false

namespace SeleniumSideRunner

mutual
/-- A JSON value as produced by Python's `json.loads` (`null` ↦ `None`).
Numbers are modelled as integers; no claim depends on fractional values. -/
inductive JsonValue where
  | null : JsonValue
  | bool : Bool → JsonValue
  | num : Int → JsonValue
  | str : String → JsonValue
  | arr : JsonArr → JsonValue
  | obj : JsonObj → JsonValue
/-- The items of a JSON array. -/
inductive JsonArr where
  | nil : JsonArr
  | cons : JsonValue → JsonArr → JsonArr
/-- The key/value entries of a JSON object, in textual order. -/
inductive JsonObj where
  | nil : JsonObj
  | cons : String → JsonValue → JsonObj → JsonObj
end

deriving instance DecidableEq for Except
deriving instance DecidableEq for JsonValue
deriving instance DecidableEq for JsonArr
deriving instance DecidableEq for JsonObj

/-- The items of a JSON array as a Lean list. -/
def JsonArr.toList : JsonArr → List JsonValue
  | .nil => []
  | .cons x xs => x :: xs.toList

/-- Build a JSON array from a Lean list of items. -/
def JsonArr.ofList : List JsonValue → JsonArr
  | [] => .nil
  | x :: xs => .cons x (JsonArr.ofList xs)

/-- The entries of a JSON object as a Lean association list. -/
def JsonObj.toList : JsonObj → List (String × JsonValue)
  | .nil => []
  | .cons k v kvs => (k, v) :: kvs.toList

/-- Build a JSON object from a Lean association list. -/
def JsonObj.ofList : List (String × JsonValue) → JsonObj
  | [] => .nil
  | (k, v) :: kvs => .cons k v (JsonObj.ofList kvs)

/-- Python truthiness of a JSON-derived value: `bool(v)`, also the test used
by the `or` operator. -/
def truthy : JsonValue → Bool
  | .null => false
  | .bool b => b
  | .num n => n != 0
  | .str s => s != ""
  | .arr xs => !xs.toList.isEmpty
  | .obj kvs => !kvs.toList.isEmpty

/-- Lookup in an association list modelling a Python dict built by
`json.loads`: a duplicated key in the JSON text keeps the last value. -/
def lookupLast (kvs : List (String × JsonValue)) (k : String) : Option JsonValue :=
  ((kvs.filter (fun kv => kv.fst == k)).getLast?).map Prod.snd

/-- Python exceptions the loader can raise. -/
inductive PyError where
  /-- The explicit `TypeError` raised when `json_payload` is not a string
  (the design document's `InputTypeError`). -/
  | inputTypeError : PyError
  /-- `json.JSONDecodeError` from `json.loads` (the design document's
  `MalformedInputError`). -/
  | malformedInputError : PyError
  /-- `AttributeError`: `.get` called on a value that is not a dict. -/
  | attributeError : PyError
  /-- Any other `TypeError`: iterating a non-iterable, unhashable dict key. -/
  | typeError : PyError
  deriving DecidableEq

/-- Python `raw.get(k, d)`: raises `AttributeError` unless `raw` is a dict;
a key present with value `null` returns `null`, not the default. -/
def pyGet (raw : JsonValue) (k : String) (d : JsonValue) : Except PyError JsonValue :=
  match raw with
  | .obj kvs => .ok ((lookupLast kvs.toList k).getD d)
  | _ => .error .attributeError

/-- Python `raw.get(k)` (default `None`). -/
def pyGetNone (raw : JsonValue) (k : String) : Except PyError JsonValue :=
  pyGet raw k .null

/-- First-occurrence deduplication of dict keys (Python dict key order). -/
def dedupKeys : List (String × JsonValue) → List String
  | [] => []
  | (k, _) :: rest =>
      let tail := dedupKeys rest
      k :: tail.filter (fun k2 => k2 != k)

/-- Python iteration (`for x in v` / `list(v)`) over a JSON-derived value:
lists yield their elements, strings their one-character substrings, dicts
their keys; other values raise `TypeError: not iterable`. -/
def pyIterList : JsonValue → Except PyError (List JsonValue)
  | .arr xs => .ok xs.toList
  | .str s => .ok (s.data.map (fun c => .str (String.mk [c])))
  | .obj kvs => .ok ((dedupKeys kvs.toList).map .str)
  | _ => .error .typeError

/-- Whether a JSON-derived value is hashable in Python (usable as dict key). -/
def hashable : JsonValue → Bool
  | .arr _ => false
  | .obj _ => false
  | _ => true

/-- Modelled from the spec: the repository's `models.py` (imported by the
loader but not present in the sources) declares `SideCommand` as an immutable
value object storing the constructor arguments unchanged. Fields hold
arbitrary JSON-derived values, since Python performs no type enforcement. -/
structure SideCommand where
  id : JsonValue
  command : JsonValue
  target : JsonValue
  value : JsonValue
  comment : JsonValue
  deriving DecidableEq

/-- Modelled from the spec: `models.py`'s `SideTest` — an immutable value
object with an id, a name, and an ordered list of commands. -/
structure SideTest where
  id : JsonValue
  name : JsonValue
  commands : List SideCommand
  deriving DecidableEq

/-- Modelled from the spec: `models.py`'s `SideSuite` — an immutable value
object; `tests` is the ordered list of raw test-identifier references. -/
structure SideSuite where
  id : JsonValue
  name : JsonValue
  tests : List JsonValue
  persist_session : Bool
  parallel : Bool
  timeout : JsonValue
  deriving DecidableEq

/-- Modelled from the spec: `models.py`'s `SideProject` — an immutable value
object; `tests` is a Python dict from test id to test, modelled as an
insertion-ordered association list with distinct keys. -/
structure SideProject where
  id : JsonValue
  name : JsonValue
  url : JsonValue
  tests : List (JsonValue × SideTest)
  suites : List SideSuite
  deriving DecidableEq

/-- `loader._build_command`: `SideCommand(id=raw.get("id", ""),
command=raw.get("command", ""), target=raw.get("target", "") or "",
value=raw.get("value", "") or "", comment=raw.get("comment"))`. -/
def build_command (raw : JsonValue) : Except PyError SideCommand := do
  let i ← pyGet raw "id" (.str "")
  let c ← pyGet raw "command" (.str "")
  let t ← pyGet raw "target" (.str "")
  let v ← pyGet raw "value" (.str "")
  let com ← pyGetNone raw "comment"
  pure { id := i, command := c,
         target := if truthy t then t else .str "",
         value := if truthy v then v else .str "",
         comment := com }

/-- `loader._build_test`: builds the command list from `raw.get("commands", [])`
element-wise through `_build_command`, then assembles the `SideTest`. -/
def build_test (raw : JsonValue) : Except PyError SideTest := do
  let rawCommands ← pyGet raw "commands" (.arr .nil)
  let commandItems ← pyIterList rawCommands
  let commands ← commandItems.mapM build_command
  let i ← pyGet raw "id" (.str "")
  let n ← pyGet raw "name" (.str "")
  pure { id := i, name := n, commands := commands }

/-- `loader._build_suite`: `SideSuite(id=raw.get("id", ""),
name=raw.get("name", ""), tests=list(raw.get("tests", [])),
persist_session=bool(raw.get("persistSession", False)),
parallel=bool(raw.get("parallel", False)), timeout=raw.get("timeout"))`. -/
def build_suite (raw : JsonValue) : Except PyError SideSuite := do
  let i ← pyGet raw "id" (.str "")
  let n ← pyGet raw "name" (.str "")
  let rawTests ← pyGet raw "tests" (.arr .nil)
  let tests ← pyIterList rawTests
  let ps ← pyGet raw "persistSession" (.bool false)
  let par ← pyGet raw "parallel" (.bool false)
  let t ← pyGetNone raw "timeout"
  pure { id := i, name := n, tests := tests,
         persist_session := truthy ps, parallel := truthy par, timeout := t }

/-- Insertion into a Python dict modelled as an ordered association list:
an existing key keeps its position and gets the new value; a new key is
appended. -/
def dictInsert (m : List (JsonValue × SideTest)) (k : JsonValue) (v : SideTest) :
    List (JsonValue × SideTest) :=
  if m.any (fun kv => kv.fst == k) then
    m.map (fun kv => if kv.fst == k then (kv.fst, v) else kv)
  else
    m ++ [(k, v)]

/-- The dict comprehension `{test.id: test for test in tests}`: left-to-right
insertion with last-write-wins; an unhashable id raises `TypeError`. -/
def buildTestMap : List SideTest → List (JsonValue × SideTest) →
    Except PyError (List (JsonValue × SideTest))
  | [], m => .ok m
  | t :: rest, m =>
      if hashable t.id then buildTestMap rest (dictInsert m t.id t)
      else .error .typeError

/-- Line 44 of the loader: the expression
`raw_project.get("name") or default_name or "Unnamed Project"`, with the
`.get` already performed (`rawName` is its result, `None` when absent).
Python `x or y` yields `x` when `x` is truthy and `y` otherwise. -/
def resolveName (rawName : JsonValue) (default_name : Option String) : JsonValue :=
  if truthy rawName then rawName
  else
    match default_name with
    | some d => if d != "" then JsonValue.str d else .str "Unnamed Project"
    | none => .str "Unnamed Project"

/-- The argument passed to `load_side_project`: either a Python string —
represented by its `json.loads` outcome — or any non-string object. -/
inductive PyInput where
  /-- A string; `Except.error ()` stands for text that is not valid JSON. -/
  | str : Except Unit JsonValue → PyInput
  /-- Any non-string Python object. -/
  | nonStr : PyInput

/-- `loader.load_side_project(json_payload, *, default_name=None)`. -/
def load_side_project (input : PyInput) (default_name : Option String) :
    Except PyError SideProject := do
  match input with
  | .nonStr => throw .inputTypeError
  | .str parseOutcome =>
    match parseOutcome with
    | .error _ => throw .malformedInputError
    | .ok raw_project => do
      -- project_name = raw_project.get("name") or default_name or "Unnamed Project"
      let rawName ← pyGetNone raw_project "name"
      let project_name := resolveName rawName default_name
      let rawTests ← pyGet raw_project "tests" (.arr .nil)
      let testItems ← pyIterList rawTests
      let tests ← testItems.mapM build_test
      let test_map ← buildTestMap tests []
      let rawSuites ← pyGet raw_project "suites" (.arr .nil)
      let suiteItems ← pyIterList rawSuites
      let suites ← suiteItems.mapM build_suite
      let i ← pyGet raw_project "id" (.str "")
      let url ← pyGetNone raw_project "url"
      pure { id := i, name := project_name, url := url,
             tests := test_map, suites := suites }

/-- A raw command record is a JSON object (anything else makes
`_build_command`'s `.get` raise `AttributeError`). -/
def commandShapeOk : JsonValue → Bool
  | .obj _ => true
  | _ => false

/-- A raw test record that `_build_test` and the test-map comprehension
process without an exception: an object whose `commands` entry (defaulting
to `[]`) iterates to command records, and whose `id` (defaulting to `""`)
is hashable. -/
def testShapeOk (t : JsonValue) : Bool :=
  match t with
  | .obj kvs =>
      (match pyIterList ((lookupLast kvs.toList "commands").getD (.arr .nil)) with
       | .ok cs => cs.all commandShapeOk
       | .error _ => false)
      && hashable ((lookupLast kvs.toList "id").getD (.str ""))
  | _ => false

/-- A raw suite record that `_build_suite` processes without an exception:
an object whose `tests` entry (defaulting to `[]`) is iterable. -/
def suiteShapeOk (s : JsonValue) : Bool :=
  match s with
  | .obj kvs =>
      (match pyIterList ((lookupLast kvs.toList "tests").getD (.arr .nil)) with
       | .ok _ => true
       | .error _ => false)
  | _ => false

/-- A parsed JSON document that `load_side_project` processes without an
exception: a top-level object whose `tests` entry (defaulting to `[]`)
iterates to well-shaped test records and whose `suites` entry (defaulting
to `[]`) iterates to well-shaped suite records. -/
def projectShapeOk (v : JsonValue) : Bool :=
  match v with
  | .obj kvs =>
      (match pyIterList ((lookupLast kvs.toList "tests").getD (.arr .nil)) with
       | .ok ts => ts.all testShapeOk
       | .error _ => false)
      && (match pyIterList ((lookupLast kvs.toList "suites").getD (.arr .nil)) with
       | .ok ss => ss.all suiteShapeOk
       | .error _ => false)
  | _ => false

/-- The spec's worked example:
`{"tests":[{"id":"t1","name":"A","commands":[]}],
  "suites":[{"id":"s1","name":"S","tests":["t1","missing"]}]}`,
whose suite references the nonexistent test id `"missing"`. -/
def exampleDanglingRef : JsonValue :=
  .obj (.cons "tests"
          (.arr (.cons (.obj (.cons "id" (.str "t1")
                               (.cons "name" (.str "A")
                                 (.cons "commands" (.arr .nil) .nil)))) .nil))
         (.cons "suites"
            (.arr (.cons (.obj (.cons "id" (.str "s1")
                                 (.cons "name" (.str "S")
                                   (.cons "tests"
                                     (.arr (.cons (.str "t1")
                                             (.cons (.str "missing") .nil)))
                                     .nil)))) .nil))
            .nil))

/-- A raw project whose tests list holds two records sharing the id `"t"`:
`{"tests":[{"id":"t","name":"first"},{"id":"t","name":"second"}]}`. -/
def exampleDuplicateIds : JsonValue :=
  .obj (.cons "tests"
          (.arr (.cons (.obj (.cons "id" (.str "t") (.cons "name" (.str "first") .nil)))
                  (.cons (.obj (.cons "id" (.str "t") (.cons "name" (.str "second") .nil)))
                    .nil)))
          .nil)

theorem pureOk {ε α : Type} (a : α) : (pure a : Except ε α) = .ok a := rfl

theorem bindOk {ε α β : Type} (a : α) (f : α → Except ε β) :
    (Except.ok a >>= f : Except ε β) = f a := rfl

theorem bindErr {ε α β : Type} (e : ε) (f : α → Except ε β) :
    (Except.error e >>= f : Except ε β) = .error e := rfl

theorem build_command_obj (kvs : JsonObj) :
    build_command (.obj kvs) =
      .ok { id := (lookupLast kvs.toList "id").getD (.str ""),
            command := (lookupLast kvs.toList "command").getD (.str ""),
            target := if truthy ((lookupLast kvs.toList "target").getD (.str ""))
                      then (lookupLast kvs.toList "target").getD (.str "") else .str "",
            value := if truthy ((lookupLast kvs.toList "value").getD (.str ""))
                     then (lookupLast kvs.toList "value").getD (.str "") else .str "",
            comment := (lookupLast kvs.toList "comment").getD .null } := rfl

theorem build_suite_obj (kvs : JsonObj) (ts : List JsonValue)
    (h : pyIterList ((lookupLast kvs.toList "tests").getD (.arr .nil)) = .ok ts) :
    build_suite (.obj kvs) =
      .ok { id := (lookupLast kvs.toList "id").getD (.str ""),
            name := (lookupLast kvs.toList "name").getD (.str ""),
            tests := ts,
            persist_session := truthy ((lookupLast kvs.toList "persistSession").getD (.bool false)),
            parallel := truthy ((lookupLast kvs.toList "parallel").getD (.bool false)),
            timeout := (lookupLast kvs.toList "timeout").getD .null } := by
  simp only [build_suite, pyGet, pyGetNone, bindOk, pureOk, h]

theorem build_test_obj (kvs : JsonObj) (items : List JsonValue) (cmds : List SideCommand)
    (h1 : pyIterList ((lookupLast kvs.toList "commands").getD (.arr .nil)) = .ok items)
    (h2 : items.mapM build_command = .ok cmds) :
    build_test (.obj kvs) =
      .ok { id := (lookupLast kvs.toList "id").getD (.str ""),
            name := (lookupLast kvs.toList "name").getD (.str ""),
            commands := cmds } := by
  simp only [build_test, pyGet, bindOk, pureOk, h1, h2]

theorem mapM_ok_iff {α β : Type} (f : α → Except PyError β) (xs : List α) (ys : List β) :
    xs.mapM f = .ok ys ↔ List.Forall₂ (fun a b => f a = .ok b) xs ys := by
  induction xs generalizing ys with
  | nil =>
      simp only [List.mapM_nil, pureOk, Except.ok.injEq, List.forall₂_nil_left_iff]
      exact eq_comm
  | cons x xs ih =>
      rw [List.mapM_cons]
      constructor
      · intro h
        rcases hx : f x with e | y
        · rw [hx] at h; rw [bindErr] at h; exact Except.noConfusion h
        · rw [hx, bindOk] at h
          rcases hxs : xs.mapM f with e | ys'
          · rw [hxs] at h; rw [bindErr] at h; exact Except.noConfusion h
          · rw [hxs, bindOk, pureOk] at h
            have : y :: ys' = ys := by injection h
            subst this
            exact List.Forall₂.cons hx ((ih ys').mp hxs)
      · intro h
        cases h with
        | cons hx hrest =>
            rw [hx, bindOk, (ih _).mpr hrest, bindOk, pureOk]

theorem mapM_err_mem {α β : Type} (f : α → Except PyError β) :
    ∀ (xs : List α) (e : PyError), xs.mapM f = .error e → ∃ a ∈ xs, f a = .error e := by
  intro xs
  induction xs with
  | nil => intro e h; rw [List.mapM_nil] at h; exact Except.noConfusion h
  | cons x xs ih =>
      intro e h
      rw [List.mapM_cons] at h
      rcases hx : f x with e' | y
      · rw [hx, bindErr] at h
        have : e' = e := by injection h
        exact ⟨x, List.mem_cons_self x xs, by rw [hx, this]⟩
      · rw [hx, bindOk] at h
        rcases hxs : xs.mapM f with e' | ys'
        · rw [hxs, bindErr] at h
          have : e' = e := by injection h
          obtain ⟨a, ha, hfa⟩ := ih e' hxs
          exact ⟨a, List.mem_cons_of_mem x ha, by rw [hfa, this]⟩
        · rw [hxs, bindOk, pureOk] at h; exact Except.noConfusion h

theorem mapM_ok_of_all {α β : Type} (f : α → Except PyError β) :
    ∀ (xs : List α), (∀ a ∈ xs, ∃ b, f a = .ok b) → ∃ ys, xs.mapM f = .ok ys := by
  intro xs
  induction xs with
  | nil => intro _; exact ⟨[], by rw [List.mapM_nil, pureOk]⟩
  | cons x xs ih =>
      intro hall
      obtain ⟨y, hy⟩ := hall x (List.mem_cons_self x xs)
      obtain ⟨ys, hys⟩ := ih (fun a ha => hall a (List.mem_cons_of_mem x ha))
      exact ⟨y :: ys, by rw [List.mapM_cons, hy, bindOk, hys, bindOk, pureOk]⟩

theorem pyIterList_err (v : JsonValue) (e : PyError)
    (h : pyIterList v = .error e) : e = .typeError := by
  cases v <;> simp only [pyIterList] at h <;> first
    | exact Except.noConfusion h
    | · injection h with h'; exact h'.symm

theorem pyGet_err (raw : JsonValue) (k : String) (d : JsonValue) (e : PyError)
    (h : pyGet raw k d = .error e) : e = .attributeError := by
  cases raw <;> simp only [pyGet] at h <;> first
    | exact Except.noConfusion h
    | · injection h with h'; exact h'.symm

theorem load_obj_inv (kvs : JsonObj) (dn : Option String) (p : SideProject)
    (h : load_side_project (.str (.ok (.obj kvs))) dn = .ok p) :
    ∃ testItems tests test_map suiteItems suites,
      pyIterList ((lookupLast kvs.toList "tests").getD (.arr .nil)) = .ok testItems ∧
      testItems.mapM build_test = .ok tests ∧
      buildTestMap tests [] = .ok test_map ∧
      pyIterList ((lookupLast kvs.toList "suites").getD (.arr .nil)) = .ok suiteItems ∧
      suiteItems.mapM build_suite = .ok suites ∧
      p = { id := (lookupLast kvs.toList "id").getD (.str ""),
            name := resolveName ((lookupLast kvs.toList "name").getD .null) dn,
            url := (lookupLast kvs.toList "url").getD .null,
            tests := test_map, suites := suites } := by
  simp only [load_side_project, pyGet, pyGetNone, bindOk, pureOk] at h
  rcases h1 : pyIterList ((lookupLast kvs.toList "tests").getD (.arr .nil)) with e | testItems <;>
    rw [h1] at h
  · rw [bindErr] at h; exact Except.noConfusion h
  rw [bindOk] at h
  rcases h2 : testItems.mapM build_test with e | tests <;> rw [h2] at h
  · rw [bindErr] at h; exact Except.noConfusion h
  rw [bindOk] at h
  rcases h3 : buildTestMap tests [] with e | test_map <;> rw [h3] at h
  · rw [bindErr] at h; exact Except.noConfusion h
  rw [bindOk] at h
  rcases h4 : pyIterList ((lookupLast kvs.toList "suites").getD (.arr .nil)) with e | suiteItems <;>
    rw [h4] at h
  · rw [bindErr] at h; exact Except.noConfusion h
  rw [bindOk] at h
  rcases h5 : suiteItems.mapM build_suite with e | suites <;> rw [h5] at h
  · rw [bindErr] at h; exact Except.noConfusion h
  rw [bindOk] at h
  refine ⟨testItems, tests, test_map, suiteItems, suites, rfl, h2, h3, rfl, h5, ?_⟩
  injection h with h'
  exact h'.symm

theorem build_command_err (raw : JsonValue) (e : PyError)
    (h : build_command raw = .error e) : e = .attributeError := by
  cases raw with
  | obj kvs => rw [build_command_obj] at h; exact Except.noConfusion h
  | _ =>
      simp only [build_command, pyGet, bindErr] at h
      injection h with h'
      exact h'.symm

theorem build_test_err (raw : JsonValue) (e : PyError)
    (h : build_test raw = .error e) : e = .attributeError ∨ e = .typeError := by
  cases raw with
  | obj kvs =>
      simp only [build_test, pyGet, bindOk] at h
      rcases h1 : pyIterList ((lookupLast kvs.toList "commands").getD (.arr .nil)) with e' | items <;>
        rw [h1] at h
      · rw [bindErr] at h
        injection h with h'
        exact Or.inr (h'.symm.trans (pyIterList_err _ _ h1))
      rw [bindOk] at h
      rcases h2 : items.mapM build_command with e' | cmds <;> rw [h2] at h
      · rw [bindErr] at h
        injection h with h'
        obtain ⟨a, _, hfa⟩ := mapM_err_mem build_command items e' h2
        exact Or.inl (h'.symm.trans (build_command_err a e' hfa))
      · rw [bindOk, pureOk] at h; exact Except.noConfusion h
  | _ =>
      simp only [build_test, pyGet, bindErr] at h
      injection h with h'
      exact Or.inl h'.symm

theorem build_suite_err (raw : JsonValue) (e : PyError)
    (h : build_suite raw = .error e) : e = .attributeError ∨ e = .typeError := by
  cases raw with
  | obj kvs =>
      simp only [build_suite, pyGet, pyGetNone, bindOk] at h
      rcases h1 : pyIterList ((lookupLast kvs.toList "tests").getD (.arr .nil)) with e' | items <;>
        rw [h1] at h
      · rw [bindErr] at h
        injection h with h'
        exact Or.inr (h'.symm.trans (pyIterList_err _ _ h1))
      · rw [bindOk, pureOk] at h; exact Except.noConfusion h
  | _ =>
      simp only [build_suite, pyGet, bindErr] at h
      injection h with h'
      exact Or.inl h'.symm

theorem buildTestMap_err (ts : List SideTest) (m : List (JsonValue × SideTest)) (e : PyError)
    (h : buildTestMap ts m = .error e) : e = .typeError := by
  induction ts generalizing m with
  | nil => simp only [buildTestMap] at h; exact Except.noConfusion h
  | cons t rest ih =>
      simp only [buildTestMap] at h
      by_cases hh : hashable t.id = true
      · rw [if_pos hh] at h; exact ih _ h
      · rw [if_neg hh] at h; injection h with h'; exact h'.symm

theorem load_parsed_err (v : JsonValue) (dn : Option String) (e : PyError)
    (h : load_side_project (.str (.ok v)) dn = .error e) :
    e = .attributeError ∨ e = .typeError := by
  cases v with
  | obj kvs =>
      simp only [load_side_project, pyGet, pyGetNone, bindOk, pureOk] at h
      rcases h1 : pyIterList ((lookupLast kvs.toList "tests").getD (.arr .nil)) with e' | testItems <;>
        rw [h1] at h
      · rw [bindErr] at h; injection h with h'
        exact Or.inr (h'.symm.trans (pyIterList_err _ _ h1))
      rw [bindOk] at h
      rcases h2 : testItems.mapM build_test with e' | tests <;> rw [h2] at h
      · rw [bindErr] at h; injection h with h'
        obtain ⟨a, _, hfa⟩ := mapM_err_mem build_test testItems e' h2
        rcases build_test_err a e' hfa with h'' | h''
        · exact Or.inl (h'.symm.trans h'')
        · exact Or.inr (h'.symm.trans h'')
      rw [bindOk] at h
      rcases h3 : buildTestMap tests [] with e' | test_map <;> rw [h3] at h
      · rw [bindErr] at h; injection h with h'
        exact Or.inr (h'.symm.trans (buildTestMap_err _ _ _ h3))
      rw [bindOk] at h
      rcases h4 : pyIterList ((lookupLast kvs.toList "suites").getD (.arr .nil)) with e' | suiteItems <;>
        rw [h4] at h
      · rw [bindErr] at h; injection h with h'
        exact Or.inr (h'.symm.trans (pyIterList_err _ _ h4))
      rw [bindOk] at h
      rcases h5 : suiteItems.mapM build_suite with e' | suites <;> rw [h5] at h
      · rw [bindErr] at h; injection h with h'
        obtain ⟨a, _, hfa⟩ := mapM_err_mem build_suite suiteItems e' h5
        rcases build_suite_err a e' hfa with h'' | h''
        · exact Or.inl (h'.symm.trans h'')
        · exact Or.inr (h'.symm.trans h'')
      rw [bindOk] at h
      exact Except.noConfusion h
  | _ =>
      simp only [load_side_project, pyGet, pyGetNone, bindErr] at h
      injection h with h'
      exact Or.inl h'.symm

theorem mapM_ok_sources {α β : Type} (f : α → Except PyError β) :
    ∀ (xs : List α) (ys : List β), xs.mapM f = .ok ys →
      ∀ b ∈ ys, ∃ a ∈ xs, f a = .ok b := by
  intro xs
  induction xs with
  | nil =>
      intro ys h b hb
      rw [List.mapM_nil, pureOk] at h
      injection h with h'
      rw [← h'] at hb
      exact absurd hb (List.not_mem_nil b)
  | cons x xs ih =>
      intro ys h b hb
      rw [List.mapM_cons] at h
      rcases hx : f x with e | y <;> rw [hx] at h
      · rw [bindErr] at h; exact Except.noConfusion h
      rw [bindOk] at h
      rcases hxs : xs.mapM f with e | ys' <;> rw [hxs] at h
      · rw [bindErr] at h; exact Except.noConfusion h
      rw [bindOk, pureOk] at h
      injection h with h'
      rw [← h'] at hb
      rcases List.mem_cons.mp hb with hb1 | hb2
      · exact ⟨x, List.mem_cons_self x xs, by rw [hx, hb1]⟩
      · obtain ⟨a, ha, hfa⟩ := ih ys' hxs b hb2
        exact ⟨a, List.mem_cons_of_mem x ha, hfa⟩

theorem build_command_ok (c : JsonValue) (h : commandShapeOk c = true) :
    ∃ sc, build_command c = .ok sc := by
  cases c <;> simp only [commandShapeOk] at h <;> first
    | exact Bool.noConfusion h
    | exact ⟨_, build_command_obj _⟩

theorem build_test_ok (t : JsonValue) (h : testShapeOk t = true) :
    ∃ st, build_test t = .ok st ∧ hashable st.id = true := by
  cases t with
  | obj kvs =>
      simp only [testShapeOk] at h
      rcases h1 : pyIterList ((lookupLast kvs.toList "commands").getD (.arr .nil)) with e | items <;>
        rw [h1] at h
      · exact Bool.noConfusion (Bool.and_eq_true_iff.mp h).1
      · rw [Bool.and_eq_true] at h
        obtain ⟨hall, hhash⟩ := h
        have hsrc : ∀ a ∈ items, ∃ b, build_command a = .ok b := fun a ha =>
          build_command_ok a (List.all_eq_true.mp hall a ha)
        obtain ⟨cmds, hcmds⟩ := mapM_ok_of_all build_command items hsrc
        exact ⟨_, build_test_obj kvs items cmds h1 hcmds, hhash⟩
  | null => exact Bool.noConfusion h
  | bool b => exact Bool.noConfusion h
  | num n => exact Bool.noConfusion h
  | str s => exact Bool.noConfusion h
  | arr xs => exact Bool.noConfusion h

theorem build_suite_ok (s : JsonValue) (h : suiteShapeOk s = true) :
    ∃ ss, build_suite s = .ok ss := by
  cases s with
  | obj kvs =>
      simp only [suiteShapeOk] at h
      rcases h1 : pyIterList ((lookupLast kvs.toList "tests").getD (.arr .nil)) with e | items <;>
        rw [h1] at h
      · exact Bool.noConfusion h
      · exact ⟨_, build_suite_obj kvs items h1⟩
  | null => exact Bool.noConfusion h
  | bool b => exact Bool.noConfusion h
  | num n => exact Bool.noConfusion h
  | str s => exact Bool.noConfusion h
  | arr xs => exact Bool.noConfusion h

theorem buildTestMap_ok (ts : List SideTest) (hall : ∀ t ∈ ts, hashable t.id = true) :
    ∀ m0, ∃ m, buildTestMap ts m0 = .ok m := by
  induction ts with
  | nil => intro m0; exact ⟨m0, rfl⟩
  | cons t rest ih =>
      intro m0
      obtain ⟨m, hm⟩ := ih (fun a ha => hall a (List.mem_cons_of_mem t ha)) (dictInsert m0 t.id t)
      refine ⟨m, ?_⟩
      simp only [buildTestMap, if_pos (hall t (List.mem_cons_self t rest))]
      exact hm

theorem load_obj_eq (kvs : JsonObj) (dn : Option String)
    (testItems : List JsonValue) (tests : List SideTest)
    (test_map : List (JsonValue × SideTest))
    (suiteItems : List JsonValue) (suites : List SideSuite)
    (h1 : pyIterList ((lookupLast kvs.toList "tests").getD (.arr .nil)) = .ok testItems)
    (h2 : testItems.mapM build_test = .ok tests)
    (h3 : buildTestMap tests [] = .ok test_map)
    (h4 : pyIterList ((lookupLast kvs.toList "suites").getD (.arr .nil)) = .ok suiteItems)
    (h5 : suiteItems.mapM build_suite = .ok suites) :
    load_side_project (.str (.ok (.obj kvs))) dn =
      .ok { id := (lookupLast kvs.toList "id").getD (.str ""),
            name := resolveName ((lookupLast kvs.toList "name").getD .null) dn,
            url := (lookupLast kvs.toList "url").getD .null,
            tests := test_map, suites := suites } := by
  simp only [load_side_project, pyGet, pyGetNone, bindOk, h1, h2, h3, h4, h5, pureOk]

theorem dictInsert_filter_self (m : List (JsonValue × SideTest)) (k : JsonValue) (v : SideTest)
    (hinv : (m.filter (fun kv => kv.fst == k)).length ≤ 1) :
    (dictInsert m k v).filter (fun kv => kv.fst == k) = [(k, v)] := by
  unfold dictInsert
  by_cases hany : m.any (fun kv => kv.fst == k) = true
  · rw [if_pos hany]
    have hcomp : (fun kv : JsonValue × SideTest => kv.fst == k) ∘
        (fun kv : JsonValue × SideTest => if kv.fst == k then (kv.fst, v) else kv) =
        (fun kv : JsonValue × SideTest => kv.fst == k) := by
      funext kv
      by_cases hkv : kv.fst = k
      · simp [hkv]
      · simp [hkv]
    rw [List.filter_map, hcomp]
    obtain ⟨x, hx, hpx⟩ := List.any_eq_true.mp hany
    have hmem : x ∈ m.filter (fun kv => kv.fst == k) := List.mem_filter.mpr ⟨hx, hpx⟩
    have hlen1 : (m.filter (fun kv => kv.fst == k)).length = 1 :=
      Nat.le_antisymm hinv (List.length_pos.mpr (List.ne_nil_of_mem hmem))
    obtain ⟨kv0, hkv0⟩ := List.length_eq_one.mp hlen1
    have hkv0mem : kv0 ∈ m.filter (fun kv => kv.fst == k) := by rw [hkv0]; exact List.mem_singleton_self kv0
    have hkv0p : (kv0.fst == k) = true := (List.mem_filter.mp hkv0mem).2
    have hkv0fst : kv0.fst = k := by exact beq_iff_eq.mp hkv0p
    rw [hkv0]
    simp [hkv0p, hkv0fst]
  · rw [if_neg hany]
    rw [List.filter_append]
    have hnil : m.filter (fun kv => kv.fst == k) = [] := by
      rw [List.filter_eq_nil_iff]
      intro a ha hpa
      exact hany (List.any_eq_true.mpr ⟨a, ha, hpa⟩)
    rw [hnil]
    simp

theorem dictInsert_filter_ne (m : List (JsonValue × SideTest)) (k : JsonValue) (v : SideTest)
    (k' : JsonValue) (hne : k' ≠ k) :
    (dictInsert m k v).filter (fun kv => kv.fst == k') = m.filter (fun kv => kv.fst == k') := by
  unfold dictInsert
  by_cases hany : m.any (fun kv => kv.fst == k) = true
  · rw [if_pos hany]
    have hcomp : (fun kv : JsonValue × SideTest => kv.fst == k') ∘
        (fun kv : JsonValue × SideTest => if kv.fst == k then (kv.fst, v) else kv) =
        (fun kv : JsonValue × SideTest => kv.fst == k') := by
      funext kv
      by_cases hkv : kv.fst = k
      · simp [hkv]
      · simp [hkv]
    rw [List.filter_map, hcomp]
    refine List.map_congr_left ?_ |>.trans (List.map_id _)
    intro a ha
    have hpa : (a.fst == k') = true := (List.mem_filter.mp ha).2
    have : a.fst = k' := beq_iff_eq.mp hpa
    have hak : (a.fst == k) = false := by
      rw [beq_eq_false_iff_ne]
      rw [this]
      exact hne
    simp [hak]
  · rw [if_neg hany]
    rw [List.filter_append]
    have : ((k, v).fst == k') = false := by
      rw [beq_eq_false_iff_ne]
      exact fun hkk => hne hkk.symm
    simp [this]

theorem dictInsert_len_le_one (m : List (JsonValue × SideTest)) (k : JsonValue) (v : SideTest)
    (k' : JsonValue) (hinv : (m.filter (fun kv => kv.fst == k')).length ≤ 1)
    (hinvk : (m.filter (fun kv => kv.fst == k)).length ≤ 1) :
    ((dictInsert m k v).filter (fun kv => kv.fst == k')).length ≤ 1 := by
  by_cases hk : k' = k
  · subst hk
    rw [dictInsert_filter_self m k' v hinvk]
    exact Nat.le_refl 1
  · rw [dictInsert_filter_ne m k v k' hk]
    exact hinv

theorem dictInsert_keys (m : List (JsonValue × SideTest)) (k : JsonValue) (v : SideTest)
    (k' : JsonValue) :
    (∃ t, (k', t) ∈ dictInsert m k v) ↔ k' = k ∨ ∃ t, (k', t) ∈ m := by
  unfold dictInsert
  by_cases hany : m.any (fun kv => kv.fst == k) = true
  · rw [if_pos hany]
    constructor
    · rintro ⟨t, ht⟩
      obtain ⟨kv, hkv, hfkv⟩ := List.mem_map.mp ht
      by_cases hp : (kv.fst == k) = true
      · rw [if_pos hp] at hfkv
        have h1 : kv.fst = k' := congrArg Prod.fst hfkv
        exact Or.inl (h1.symm.trans (beq_iff_eq.mp hp))
      · rw [if_neg hp] at hfkv
        exact Or.inr ⟨t, by rw [hfkv] at hkv; exact hkv⟩
    · rintro (rfl | ⟨t, ht⟩)
      · obtain ⟨kv0, hkv0, hp0⟩ := List.any_eq_true.mp hany
        refine ⟨v, ?_⟩
        refine List.mem_map.mpr ⟨kv0, hkv0, ?_⟩
        rw [if_pos hp0]
        exact Prod.ext (beq_iff_eq.mp hp0) rfl
      · by_cases hp : ((k', t).fst == k) = true
        · obtain ⟨kv0, hkv0, hp0⟩ := List.any_eq_true.mp hany
          refine ⟨v, List.mem_map.mpr ⟨kv0, hkv0, ?_⟩⟩
          rw [if_pos hp0]
          exact Prod.ext ((beq_iff_eq.mp hp0).trans (beq_iff_eq.mp hp).symm) rfl
        · exact ⟨t, List.mem_map.mpr ⟨(k', t), ht, by rw [if_neg hp]⟩⟩
  · rw [if_neg hany]
    constructor
    · rintro ⟨t, ht⟩
      rcases List.mem_append.mp ht with h1 | h2
      · exact Or.inr ⟨t, h1⟩
      · have := List.mem_singleton.mp h2
        exact Or.inl (congrArg Prod.fst this)
    · rintro (rfl | ⟨t, ht⟩)
      · exact ⟨v, List.mem_append.mpr (Or.inr (List.mem_singleton_self _))⟩
      · exact ⟨t, List.mem_append.mpr (Or.inl ht)⟩

theorem buildTestMap_filter_char (ts : List SideTest) :
    ∀ (m0 m : List (JsonValue × SideTest)), buildTestMap ts m0 = .ok m →
      (∀ k', (m0.filter (fun kv => kv.fst == k')).length ≤ 1) →
      ∀ k, m.filter (fun kv => kv.fst == k) =
        (match (ts.filter (fun t => t.id == k)).getLast? with
         | some t => [(k, t)]
         | none => m0.filter (fun kv => kv.fst == k)) := by
  induction ts with
  | nil =>
      intro m0 m h hinv k
      simp only [buildTestMap] at h
      injection h with h'
      subst h'
      simp only [List.filter_nil, List.getLast?_nil]
  | cons t rest ih =>
      intro m0 m h hinv k
      simp only [buildTestMap] at h
      by_cases hh : hashable t.id = true
      · rw [if_pos hh] at h
        have hinv' : ∀ k', ((dictInsert m0 t.id t).filter (fun kv => kv.fst == k')).length ≤ 1 :=
          fun k' => dictInsert_len_le_one m0 t.id t k' (hinv k') (hinv t.id)
        have IH := ih (dictInsert m0 t.id t) m h hinv' k
        by_cases hk : t.id = k
        · rw [List.filter_cons_of_pos (by simpa using hk)]
          rw [List.getLast?_cons]
          rcases hrest : (rest.filter (fun t' => t'.id == k)).getLast? with _ | t2 <;>
            rw [hrest] at IH ⊢
          · simp only [Option.getD_none]
            rw [IH]
            subst hk
            exact dictInsert_filter_self m0 t.id t (hinv t.id)
          · simp only [Option.getD_some]
            exact IH
        · rw [List.filter_cons_of_neg (by simpa using hk)]
          rw [IH]
          rw [dictInsert_filter_ne m0 t.id t k (fun h' => hk h'.symm)]
      · rw [if_neg hh] at h
        exact Except.noConfusion h

theorem buildTestMap_keys_char (ts : List SideTest) :
    ∀ (m0 m : List (JsonValue × SideTest)), buildTestMap ts m0 = .ok m →
      ∀ k, (∃ t, (k, t) ∈ m) ↔ (∃ t ∈ ts, t.id = k) ∨ (∃ t, (k, t) ∈ m0) := by
  induction ts with
  | nil =>
      intro m0 m h k
      simp only [buildTestMap] at h
      injection h with h'
      subst h'
      simp
  | cons t rest ih =>
      intro m0 m h k
      simp only [buildTestMap] at h
      by_cases hh : hashable t.id = true
      · rw [if_pos hh] at h
        rw [ih (dictInsert m0 t.id t) m h k, dictInsert_keys m0 t.id t k]
        constructor
        · rintro (⟨t', ht', rfl⟩ | (rfl | ⟨t', ht'⟩))
          · exact Or.inl ⟨t', List.mem_cons_of_mem t ht', rfl⟩
          · exact Or.inl ⟨t, List.mem_cons_self t rest, rfl⟩
          · exact Or.inr ⟨t', ht'⟩
        · rintro (⟨t', ht', rfl⟩ | ⟨t', ht'⟩)
          · rcases List.mem_cons.mp ht' with rfl | hmem
            · exact Or.inr (Or.inl rfl)
            · exact Or.inl ⟨t', hmem, rfl⟩
          · exact Or.inr (Or.inr ⟨t', ht'⟩)
      · rw [if_neg hh] at h
        exact Except.noConfusion h

theorem build_test_inv (kvs : JsonObj) (t : SideTest) (h : build_test (.obj kvs) = .ok t) :
    t.id = (lookupLast kvs.toList "id").getD (.str "") ∧
    t.name = (lookupLast kvs.toList "name").getD (.str "") ∧
    ∃ items, pyIterList ((lookupLast kvs.toList "commands").getD (.arr .nil)) = .ok items ∧
      items.mapM build_command = .ok t.commands := by
  rcases h1 : pyIterList ((lookupLast kvs.toList "commands").getD (.arr .nil)) with e | items
  · simp only [build_test, pyGet, bindOk, h1, bindErr] at h
    exact Except.noConfusion h
  · rcases h2 : items.mapM build_command with e | cmds
    · simp only [build_test, pyGet, bindOk, h1, h2, bindErr] at h
      exact Except.noConfusion h
    · rw [build_test_obj kvs items cmds h1 h2] at h
      injection h with h'
      subst h'
      exact ⟨rfl, rfl, items, rfl, h2⟩

theorem build_suite_inv (kvs : JsonObj) (s : SideSuite) (h : build_suite (.obj kvs) = .ok s) :
    s.id = (lookupLast kvs.toList "id").getD (.str "") ∧
    s.name = (lookupLast kvs.toList "name").getD (.str "") ∧
    pyIterList ((lookupLast kvs.toList "tests").getD (.arr .nil)) = .ok s.tests ∧
    s.persist_session = truthy ((lookupLast kvs.toList "persistSession").getD (.bool false)) ∧
    s.parallel = truthy ((lookupLast kvs.toList "parallel").getD (.bool false)) ∧
    s.timeout = (lookupLast kvs.toList "timeout").getD .null := by
  rcases h1 : pyIterList ((lookupLast kvs.toList "tests").getD (.arr .nil)) with e | items
  · simp only [build_suite, pyGet, pyGetNone, bindOk, h1, bindErr] at h
    exact Except.noConfusion h
  · rw [build_suite_obj kvs items h1] at h
    injection h with h'
    subst h'
    exact ⟨rfl, rfl, rfl, rfl, rfl, rfl⟩

/-- C1 (counterexample): the text `"5"` is syntactically valid JSON, yet
`load_side_project` raises `AttributeError` (from `raw_project.get` on an
`int`), an error other than `InputTypeError` and `MalformedInputError`. -/
theorem C1_counterexample :
    load_side_project (.str (.ok (.num 5))) none = .error .attributeError ∧
    PyError.attributeError ≠ PyError.inputTypeError ∧
    PyError.attributeError ≠ PyError.malformedInputError := by
  decide

/-- C1 (amended): for every parse result whose containers are well shaped
(`projectShapeOk`), the loader succeeds — missing fields, wrong-typed leaf
fields and dangling suite references are silently defaulted. -/
theorem C1_well_shaped_load_ok (v : JsonValue) (h : projectShapeOk v = true)
    (dn : Option String) : ∃ p, load_side_project (.str (.ok v)) dn = .ok p := by
  cases v with
  | obj kvs =>
      simp only [projectShapeOk] at h
      rcases h1 : pyIterList ((lookupLast kvs.toList "tests").getD (.arr .nil)) with e | testItems <;>
        rw [h1] at h
      · simp at h
      rcases h4 : pyIterList ((lookupLast kvs.toList "suites").getD (.arr .nil)) with e | suiteItems <;>
        rw [h4] at h
      · simp at h
      rw [Bool.and_eq_true] at h
      obtain ⟨hts, hss⟩ := h
      have htestsOk : ∀ a ∈ testItems, ∃ b, build_test a = .ok b := by
        intro a ha
        obtain ⟨st, hst, _⟩ := build_test_ok a (List.all_eq_true.mp hts a ha)
        exact ⟨st, hst⟩
      obtain ⟨tests, hTests⟩ := mapM_ok_of_all build_test testItems htestsOk
      have hhash : ∀ t ∈ tests, hashable t.id = true := by
        intro t ht
        obtain ⟨a, ha, hfa⟩ := mapM_ok_sources build_test testItems tests hTests t ht
        obtain ⟨st, hst, hsh⟩ := build_test_ok a (List.all_eq_true.mp hts a ha)
        rw [hst] at hfa
        injection hfa with h''
        rw [← h'']
        exact hsh
      obtain ⟨test_map, hMap⟩ := buildTestMap_ok tests hhash []
      have hsuitesOk : ∀ a ∈ suiteItems, ∃ b, build_suite a = .ok b := fun a ha =>
        build_suite_ok a (List.all_eq_true.mp hss a ha)
      obtain ⟨suites, hSuites⟩ := mapM_ok_of_all build_suite suiteItems hsuitesOk
      exact ⟨_, load_obj_eq kvs dn testItems tests test_map suiteItems suites h1 hTests hMap h4 hSuites⟩
  | null => exact Bool.noConfusion h
  | bool b => exact Bool.noConfusion h
  | num n => exact Bool.noConfusion h
  | str s => exact Bool.noConfusion h
  | arr xs => exact Bool.noConfusion h

/-- C1 (witness): the spec's dangling-reference example is well shaped and
loads successfully. -/
theorem C1_witness :
    projectShapeOk exampleDanglingRef = true ∧
    ∃ p, load_side_project (.str (.ok exampleDanglingRef)) none = .ok p :=
  ⟨by decide, C1_well_shaped_load_ok exampleDanglingRef (by decide) none⟩

/-- C2 (counterexample): with raw input `{"id": null, "tests": [{"id": null}]}`
(accepted by the loader), `Project.id` and the built `Test.id` are `null`,
not `""`. -/
theorem C2_counterexample :
    load_side_project
        (.str (.ok (.obj (.cons "id" .null
          (.cons "tests" (.arr (.cons (.obj (.cons "id" .null .nil)) .nil)) .nil)))))
        none =
      .ok { id := .null, name := .str "Unnamed Project", url := .null,
            tests := [(.null, { id := .null, name := .str "", commands := [] })],
            suites := [] } ∧
    JsonValue.null ≠ JsonValue.str "" := by
  decide

/-- C2 (amended): an absent key always defaults the string-typed fields to
`""`; an explicitly null raw value is collapsed to `""` only for
`Command.target` and `Command.value`, while `Command.id`, `Command.command`,
`Test.id`, `Test.name`, `Suite.id`, `Suite.name` and `Project.id` keep the
null. -/
theorem C2_absent_vs_null (kvs : JsonObj) :
    (∀ c, build_command (.obj kvs) = .ok c →
       (lookupLast kvs.toList "id" = none → c.id = .str "") ∧
       (lookupLast kvs.toList "id" = some .null → c.id = .null) ∧
       (lookupLast kvs.toList "command" = none → c.command = .str "") ∧
       (lookupLast kvs.toList "command" = some .null → c.command = .null) ∧
       (lookupLast kvs.toList "target" = none ∨ lookupLast kvs.toList "target" = some .null →
          c.target = .str "") ∧
       (lookupLast kvs.toList "value" = none ∨ lookupLast kvs.toList "value" = some .null →
          c.value = .str "")) ∧
    (∀ t, build_test (.obj kvs) = .ok t →
       (lookupLast kvs.toList "id" = none → t.id = .str "") ∧
       (lookupLast kvs.toList "id" = some .null → t.id = .null) ∧
       (lookupLast kvs.toList "name" = none → t.name = .str "") ∧
       (lookupLast kvs.toList "name" = some .null → t.name = .null)) ∧
    (∀ s, build_suite (.obj kvs) = .ok s →
       (lookupLast kvs.toList "id" = none → s.id = .str "") ∧
       (lookupLast kvs.toList "id" = some .null → s.id = .null) ∧
       (lookupLast kvs.toList "name" = none → s.name = .str "") ∧
       (lookupLast kvs.toList "name" = some .null → s.name = .null)) ∧
    (∀ dn p, load_side_project (.str (.ok (.obj kvs))) dn = .ok p →
       (lookupLast kvs.toList "id" = none → p.id = .str "") ∧
       (lookupLast kvs.toList "id" = some .null → p.id = .null)) := by
  refine ⟨?_, ?_, ?_, ?_⟩
  · intro c hc
    rw [build_command_obj] at hc
    injection hc with hc'
    subst hc'
    refine ⟨fun h => by rw [h]; rfl, fun h => by rw [h]; rfl,
            fun h => by rw [h]; rfl, fun h => by rw [h]; rfl, ?_, ?_⟩
    · rintro (h | h) <;> simp [h, truthy]
    · rintro (h | h) <;> simp [h, truthy]
  · intro t ht
    obtain ⟨hid, hname, -⟩ := build_test_inv kvs t ht
    refine ⟨fun h => ?_, fun h => ?_, fun h => ?_, fun h => ?_⟩ <;>
      first
        | (rw [hid, h]; rfl)
        | (rw [hname, h]; rfl)
  · intro s hs
    obtain ⟨hid, hname, -⟩ := build_suite_inv kvs s hs
    refine ⟨fun h => ?_, fun h => ?_, fun h => ?_, fun h => ?_⟩ <;>
      first
        | (rw [hid, h]; rfl)
        | (rw [hname, h]; rfl)
  · intro dn p hp
    obtain ⟨a, b, c, d, e, h1, h2, h3, h4, h5, hpe⟩ := load_obj_inv kvs dn p hp
    subst hpe
    exact ⟨fun h => by simp only [h]; rfl, fun h => by simp only [h]; rfl⟩

/-- C2 (witness): for the record `{"target": null}` the built command's
`target` is `""`. -/
theorem C2_witness :
    (SideCommand.mk (.str "") (.str "") (.str "") (.str "") .null).target = .str "" :=
  ((C2_absent_vs_null (.cons "target" .null .nil)).1
      (SideCommand.mk (.str "") (.str "") (.str "") (.str "") .null) (by decide)).2.2.2.2.1
    (Or.inr (by decide))

/-- C3 (counterexample): with no raw `name` and the caller-supplied
`default_name = ""` (present), the result is `"Unnamed Project"`, not the
supplied default — an empty default is skipped, contradicting clause (b) of
the claimed priority order. -/
theorem C3_counterexample :
    (load_side_project (.str (.ok (.obj .nil))) (some "")).map SideProject.name =
      .ok (.str "Unnamed Project") ∧
    JsonValue.str "Unnamed Project" ≠ .str "" := by
  decide

/-- C3 (amended): the name priority is (a) the raw `name` when present and
truthy (for strings: non-empty), (b) the `default_name` when supplied and
non-empty, (c) `"Unnamed Project"` — an empty `default_name` behaves like an
absent one. -/
theorem C3_name_priority (kvs : JsonObj) (dn : Option String) (p : SideProject)
    (h : load_side_project (.str (.ok (.obj kvs))) dn = .ok p) :
    (truthy ((lookupLast kvs.toList "name").getD .null) = true →
       p.name = (lookupLast kvs.toList "name").getD .null) ∧
    (truthy ((lookupLast kvs.toList "name").getD .null) = false →
       ∀ d, dn = some d → d ≠ "" → p.name = .str d) ∧
    (truthy ((lookupLast kvs.toList "name").getD .null) = false →
       dn = none ∨ dn = some "" → p.name = .str "Unnamed Project") := by
  obtain ⟨a, b, c, d, e, h1, h2, h3, h4, h5, hpe⟩ := load_obj_inv kvs dn p h
  subst hpe
  refine ⟨fun htr => ?_, fun htr d' hd' hne => ?_, fun htr hd' => ?_⟩
  · simp only [resolveName, htr, if_true]
  · subst hd'
    simp only [resolveName, htr, Bool.false_eq_true, if_false]
    simp [hne]
  · rcases hd' with rfl | rfl <;> simp [resolveName, htr]

/-- C3 (witness): raw `{"name": ""}` with `default_name = "Fallback"` yields
`"Fallback"`. -/
theorem C3_witness :
    (SideProject.mk (.str "") (.str "Fallback") .null [] []).name = .str "Fallback" :=
  (C3_name_priority (.cons "name" (.str "") .nil) (some "Fallback")
      (SideProject.mk (.str "") (.str "Fallback") .null [] []) (by decide)).2.1
    (by decide) "Fallback" rfl (by decide)

/-- C10: whenever the raw `name` is absent or a string and `default_name`
is absent or a string, the loaded project's name is a non-empty string:
even when both are empty strings the result is `"Unnamed Project"`. -/
theorem C10_name_nonempty (kvs : JsonObj) (dn : Option String) (p : SideProject)
    (hname : lookupLast kvs.toList "name" = none ∨
             ∃ s, lookupLast kvs.toList "name" = some (.str s))
    (h : load_side_project (.str (.ok (.obj kvs))) dn = .ok p) :
    ∃ s, p.name = .str s ∧ s ≠ "" := by
  obtain ⟨a, b, c, d, e, h1, h2, h3, h4, h5, hpe⟩ := load_obj_inv kvs dn p h
  subst hpe
  simp only
  have hfalsy : ∀ (htr : truthy ((lookupLast kvs.toList "name").getD .null) = false),
      ∃ s, resolveName ((lookupLast kvs.toList "name").getD .null) dn = .str s ∧ s ≠ "" := by
    intro htr
    cases dn with
    | none => exact ⟨"Unnamed Project", by simp [resolveName, htr], by decide⟩
    | some d' =>
        by_cases hd : d' = ""
        · subst hd
          exact ⟨"Unnamed Project", by simp [resolveName, htr], by decide⟩
        · exact ⟨d', by simp [resolveName, htr, hd], hd⟩
  rcases hname with hn | ⟨s0, hn⟩
  · exact hfalsy (by rw [hn]; rfl)
  · by_cases hs : s0 = ""
    · subst hs
      exact hfalsy (by rw [hn]; rfl)
    · refine ⟨s0, ?_, hs⟩
      rw [hn]
      simp only [Option.getD_some]
      simp [resolveName, truthy, hs]

/-- C10 (witness): a project with neither a raw name nor a default name gets
the non-empty name `"Unnamed Project"`. -/
theorem C10_witness :
    ∃ s, (SideProject.mk (.str "") (.str "Unnamed Project") .null [] []).name = .str s ∧
      s ≠ "" :=
  C10_name_nonempty .nil none (SideProject.mk (.str "") (.str "Unnamed Project") .null [] [])
    (Or.inl (by decide)) (by decide)

/-- C4: when two built tests share an id, the project's tests dict holds
exactly one entry under that id — the build of the last occurrence in input
order — and its key set is exactly the set of built test ids. -/
theorem C4_last_write_wins (kvs : JsonObj) (dn : Option String) (p : SideProject)
    (testItems : List JsonValue) (tests : List SideTest)
    (hItems : pyIterList ((lookupLast kvs.toList "tests").getD (.arr .nil)) = .ok testItems)
    (hTests : testItems.mapM build_test = .ok tests)
    (hLoad : load_side_project (.str (.ok (.obj kvs))) dn = .ok p)
    (i j : Nat) (hi : i < tests.length) (hj : j < tests.length) (_hij : i ≠ j)
    (_hdup : (tests.get ⟨i, hi⟩).id = (tests.get ⟨j, hj⟩).id) :
    tests.filter (fun t => t.id == (tests.get ⟨j, hj⟩).id) ≠ [] ∧
    (∀ lastT,
       (tests.filter (fun t => t.id == (tests.get ⟨j, hj⟩).id)).getLast? = some lastT →
       p.tests.filter (fun kv => kv.fst == (tests.get ⟨j, hj⟩).id) =
         [((tests.get ⟨j, hj⟩).id, lastT)]) ∧
    (∀ k, (∃ t, (k, t) ∈ p.tests) ↔ ∃ t ∈ tests, t.id = k) := by
  obtain ⟨testItems', tests', test_map, suiteItems, suites, h1, h2, h3, h4, h5, hpe⟩ :=
    load_obj_inv kvs dn p hLoad
  rw [hItems] at h1
  injection h1 with h1'
  subst h1'
  rw [hTests] at h2
  injection h2 with h2'
  subst h2'
  subst hpe
  refine ⟨?_, fun lastT hlast => ?_, fun k => ?_⟩
  · have hmem : tests.get ⟨j, hj⟩ ∈ tests.filter (fun t => t.id == (tests.get ⟨j, hj⟩).id) :=
      List.mem_filter.mpr ⟨List.get_mem tests j hj, beq_self_eq_true _⟩
    exact List.ne_nil_of_mem hmem
  · have hchar := buildTestMap_filter_char tests [] test_map h3
      (by intro k'; simp) ((tests.get ⟨j, hj⟩).id)
    rw [hlast] at hchar
    simpa using hchar
  · have hchar := buildTestMap_keys_char tests [] test_map h3 k
    simpa using hchar

/-- C4 (witness): for the duplicate-id project, the tests dict holds exactly
the entry for the last record with id `"t"`. -/
theorem C4_witness :
    (SideProject.mk (.str "") (.str "Unnamed Project") .null
        [(.str "t", SideTest.mk (.str "t") (.str "second") [])] []).tests.filter
      (fun kv => kv.fst == ([SideTest.mk (.str "t") (.str "first") [],
                            SideTest.mk (.str "t") (.str "second") []].get
          ⟨1, by decide⟩).id) =
      [(([SideTest.mk (.str "t") (.str "first") [],
          SideTest.mk (.str "t") (.str "second") []].get ⟨1, by decide⟩).id,
        SideTest.mk (.str "t") (.str "second") [])] :=
  (C4_last_write_wins
      (.cons "tests"
        (.arr (.cons (.obj (.cons "id" (.str "t") (.cons "name" (.str "first") .nil)))
          (.cons (.obj (.cons "id" (.str "t") (.cons "name" (.str "second") .nil))) .nil)))
        .nil)
      none
      (SideProject.mk (.str "") (.str "Unnamed Project") .null
        [(.str "t", SideTest.mk (.str "t") (.str "second") [])] [])
      [.obj (.cons "id" (.str "t") (.cons "name" (.str "first") .nil)),
       .obj (.cons "id" (.str "t") (.cons "name" (.str "second") .nil))]
      [SideTest.mk (.str "t") (.str "first") [], SideTest.mk (.str "t") (.str "second") []]
      (by decide) (by decide) (by decide)
      0 1 (by decide) (by decide) (by decide) (by decide)).2.1
    (SideTest.mk (.str "t") (.str "second") []) (by decide)

/-- C5: `Command.target` and `Command.value` collapse every falsy raw value
(missing key, explicit `null`, explicit `""`, any false-like value) to `""`,
while a present truthy string is taken unchanged. -/
theorem C5_falsy_to_empty (kvs : JsonObj) (c : SideCommand)
    (h : build_command (.obj kvs) = .ok c) :
    (truthy ((lookupLast kvs.toList "target").getD (.str "")) = false → c.target = .str "") ∧
    (truthy ((lookupLast kvs.toList "target").getD (.str "")) = true →
       c.target = (lookupLast kvs.toList "target").getD (.str "")) ∧
    (lookupLast kvs.toList "target" = none → c.target = .str "") ∧
    (lookupLast kvs.toList "target" = some .null → c.target = .str "") ∧
    (lookupLast kvs.toList "target" = some (.str "") → c.target = .str "") ∧
    (∀ s, s ≠ "" → lookupLast kvs.toList "target" = some (.str s) → c.target = .str s) ∧
    (truthy ((lookupLast kvs.toList "value").getD (.str "")) = false → c.value = .str "") ∧
    (truthy ((lookupLast kvs.toList "value").getD (.str "")) = true →
       c.value = (lookupLast kvs.toList "value").getD (.str "")) ∧
    (lookupLast kvs.toList "value" = none → c.value = .str "") ∧
    (lookupLast kvs.toList "value" = some .null → c.value = .str "") ∧
    (lookupLast kvs.toList "value" = some (.str "") → c.value = .str "") ∧
    (∀ s, s ≠ "" → lookupLast kvs.toList "value" = some (.str s) → c.value = .str s) := by
  rw [build_command_obj] at h
  injection h with h'
  subst h'
  refine ⟨fun htr => by simp [htr], fun htr => by simp [htr],
          fun hl => by simp [hl, truthy],
          fun hl => by simp [hl, truthy],
          fun hl => by simp [hl, truthy],
          fun s hs hl => by simp [hl, truthy, hs],
          fun htr => by simp [htr], fun htr => by simp [htr],
          fun hl => by simp [hl, truthy],
          fun hl => by simp [hl, truthy],
          fun hl => by simp [hl, truthy],
          fun s hs hl => by simp [hl, truthy, hs]⟩

/-- C5 (witness): a present non-empty `target` string is taken unchanged. -/
theorem C5_witness :
    (SideCommand.mk (.str "") (.str "") (.str "x") (.str "") .null).target = .str "x" :=
  ((C5_falsy_to_empty (.cons "target" (.str "x") .nil)
      (SideCommand.mk (.str "") (.str "") (.str "x") (.str "") .null)
      (by decide)).2.2.2.2.2.1) "x" (by decide) (by decide)

/-- C6: the built suite's test-id list is the raw suite's `tests` array
copied verbatim — no resolution to `Test` objects and no existence check —
and the spec's dangling-reference example loads with the list
`["t1", "missing"]` unchanged. -/
theorem C6_suite_tests_verbatim :
    (∀ kvs ts s, lookupLast (JsonObj.toList kvs) "tests" = some (.arr ts) →
        build_suite (.obj kvs) = .ok s → s.tests = ts.toList) ∧
    load_side_project (.str (.ok exampleDanglingRef)) none =
      .ok { id := .str "", name := .str "Unnamed Project", url := .null,
            tests := [(.str "t1", { id := .str "t1", name := .str "A", commands := [] })],
            suites := [{ id := .str "s1", name := .str "S",
                         tests := [.str "t1", .str "missing"],
                         persist_session := false, parallel := false, timeout := .null }] } := by
  constructor
  · intro kvs ts s hlk hs
    obtain ⟨-, -, hiter, -, -, -⟩ := build_suite_inv kvs s hs
    rw [hlk] at hiter
    simp only [Option.getD_some, pyIterList] at hiter
    injection hiter with h'
    exact h'.symm
  · decide

/-- C6 (witness): a suite whose raw `tests` is `["a"]` gets exactly
`["a"]`. -/
theorem C6_witness :
    (SideSuite.mk (.str "") (.str "") [.str "a"] false false .null).tests =
      (JsonArr.cons (.str "a") .nil).toList :=
  C6_suite_tests_verbatim.1 (.cons "tests" (.arr (.cons (.str "a") .nil)) .nil)
    (JsonArr.cons (.str "a") .nil)
    (SideSuite.mk (.str "") (.str "") [.str "a"] false false .null)
    (by decide) (by decide)

/-- C7: a non-string argument raises exactly `InputTypeError`; a string
argument never raises `InputTypeError`; a string that is not valid JSON
raises `MalformedInputError`. (In the `Except` model an error excludes any
partial result by construction.) -/
theorem C7_error_model :
    (∀ dn, load_side_project .nonStr dn = .error .inputTypeError) ∧
    (∀ t dn e, load_side_project (.str t) dn = .error e → e ≠ .inputTypeError) ∧
    (∀ dn, load_side_project (.str (.error ())) dn = .error .malformedInputError) := by
  refine ⟨fun dn => rfl, ?_, fun dn => rfl⟩
  intro t dn e h
  rcases t with u | v
  · have hm : (Except.error .malformedInputError : Except PyError SideProject) = .error e := by
      rw [← h]
      rfl
    injection hm with hm'
    rw [← hm']
    decide
  · rcases load_parsed_err v dn e h with h' | h' <;> rw [h'] <;> decide

/-- C7 (witness): the `AttributeError` raised for the valid-JSON text `"5"`
is not an `InputTypeError`. -/
theorem C7_witness : PyError.attributeError ≠ PyError.inputTypeError :=
  C7_error_model.2.1 (.ok (.num 5)) none .attributeError (by decide)

/-- C8: `persistSession` and `parallel` are the boolean coercion of the raw
values, defaulting to `false` when absent; `timeout` is passed through
unchanged, with absence yielding `null` (no timeout). -/
theorem C8_suite_flags (kvs : JsonObj) (s : SideSuite)
    (h : build_suite (.obj kvs) = .ok s) :
    (lookupLast kvs.toList "persistSession" = none → s.persist_session = false) ∧
    (∀ v, lookupLast kvs.toList "persistSession" = some v → s.persist_session = truthy v) ∧
    (lookupLast kvs.toList "parallel" = none → s.parallel = false) ∧
    (∀ v, lookupLast kvs.toList "parallel" = some v → s.parallel = truthy v) ∧
    (lookupLast kvs.toList "timeout" = none → s.timeout = .null) ∧
    (∀ v, lookupLast kvs.toList "timeout" = some v → s.timeout = v) := by
  obtain ⟨-, -, -, hps, hpar, hto⟩ := build_suite_inv kvs s h
  refine ⟨fun hl => ?_, fun v hl => ?_, fun hl => ?_, fun v hl => ?_,
          fun hl => ?_, fun v hl => ?_⟩
  · rw [hps, hl]; rfl
  · rw [hps, hl]; rfl
  · rw [hpar, hl]; rfl
  · rw [hpar, hl]; rfl
  · rw [hto, hl]; rfl
  · rw [hto, hl]; rfl

/-- C8 (witness): `{"persistSession": 2, "timeout": 30}` coerces
`persistSession` to `true` and passes `timeout` through as the number 30. -/
theorem C8_witness :
    (SideSuite.mk (.str "") (.str "") [] true false (.num 30)).persist_session =
        truthy (.num 2) ∧
    (SideSuite.mk (.str "") (.str "") [] true false (.num 30)).timeout = .num 30 :=
  ⟨(C8_suite_flags (.cons "persistSession" (.num 2) (.cons "timeout" (.num 30) .nil))
      (SideSuite.mk (.str "") (.str "") [] true false (.num 30)) (by decide)).2.1
    (.num 2) (by decide),
   (C8_suite_flags (.cons "persistSession" (.num 2) (.cons "timeout" (.num 30) .nil))
      (SideSuite.mk (.str "") (.str "") [] true false (.num 30)) (by decide)).2.2.2.2.2
    (.num 30) (by decide)⟩

/-- C9: the built test's command sequence is the raw `commands` list (empty
when missing) mapped element-wise through the command builder, with the same
length and order: the i-th built command is the build of the i-th raw
record. -/
theorem C9_commands_elementwise (kvs : JsonObj) (t : SideTest)
    (h : build_test (.obj kvs) = .ok t) :
    (lookupLast kvs.toList "commands" = none → t.commands = []) ∧
    (∀ cs, lookupLast kvs.toList "commands" = some (.arr cs) →
       t.commands.length = cs.toList.length ∧
       ∀ i (h1 : i < cs.toList.length) (h2 : i < t.commands.length),
         build_command (cs.toList.get ⟨i, h1⟩) = .ok (t.commands.get ⟨i, h2⟩)) := by
  obtain ⟨hid, hname, items, hiter, hmapM⟩ := build_test_inv kvs t h
  constructor
  · intro hnone
    rw [hnone] at hiter
    simp only [Option.getD_none, pyIterList] at hiter
    injection hiter with h'
    rw [← h'] at hmapM
    simp only [JsonArr.toList] at hmapM
    rw [List.mapM_nil, pureOk] at hmapM
    injection hmapM with h''
    exact h''.symm
  · intro cs hsome
    rw [hsome] at hiter
    simp only [Option.getD_some, pyIterList] at hiter
    injection hiter with h'
    rw [← h'] at hmapM
    have hf := (mapM_ok_iff build_command cs.toList t.commands).mp hmapM
    have hget := List.forall₂_iff_get.mp hf
    exact ⟨hget.1.symm, hget.2⟩

/-- C9 (witness): for `{"commands": [{}]}` the single built command is the
build of the single raw record. -/
theorem C9_witness :
    build_command (.obj .nil) =
      .ok (SideCommand.mk (.str "") (.str "") (.str "") (.str "") .null) :=
  ((C9_commands_elementwise (.cons "commands" (.arr (.cons (.obj .nil) .nil)) .nil)
      (SideTest.mk (.str "") (.str "")
        [SideCommand.mk (.str "") (.str "") (.str "") (.str "") .null])
      (by decide)).2 (.cons (.obj .nil) .nil) (by decide)).2 0 (by decide) (by decide)

end SeleniumSideRunner
